import Mathlib

/-!
# Verification of the video-upload transcription pipeline

Shallow embedding, in Lean 4, of the core of the asynchronous
video-processing pipeline of the `video-filleUploader-ai` repository:

* `AudioChunkingService` (`audio-chucking.service.js`): configured chunk
  duration and `splitAudioIntoChunks`;
* `STTService` (`stt.service.js`): `transcribeAudioChunk` (per-chunk retry
  loop with exponential backoff) and `transcribeAudioChunks` (batch fan-out
  with partial-failure handling);
* `RAGTranscriptionService` (`transcription.service.js`):
  `combineTranscriptions`, `formatTimestamp`, `transcribeVideo` and
  `fallbackToGemini`;
* the worker (`video.processor.js`): `validateJobData`, the race guard of
  `processVideo`, and the `job.updateProgress` call sequence.

External effects (ffmpeg, HTTP calls, the database, the file system) are
modelled as oracle parameters (`Except`-valued inputs); numbers are `ℚ`
(the JavaScript numbers used by the code are durations/seconds, not
bit-level floats); JavaScript strings are `String`.

The file is laid out as definitions first, then theorems.
-/

namespace VideoUploader

/-! ## JavaScript helpers shared by several services -/

/-- One character class of JavaScript's `\s` (the cases relevant to the
transcripts handled here). -/
def jsWhitespace (c : Char) : Bool :=
  c = ' ' || c = '\t' || c = '\n' || c = '\r' || c = '\x0b' || c = '\x0c'

/-- JavaScript `str.split(/\s+/)` on the character list: pieces between
maximal whitespace runs, keeping an empty piece when the string starts or
ends with whitespace, and `[""]` for the empty string. -/
def jsSplitWs (l : List Char) : List (List Char) :=
  match h : l.dropWhile (fun c => !jsWhitespace c) with
  | [] => [l.takeWhile (fun c => !jsWhitespace c)]
  | _ :: r =>
      l.takeWhile (fun c => !jsWhitespace c) :: jsSplitWs (r.dropWhile jsWhitespace)
  termination_by l.length
  decreasing_by
    have hsub : r.length + 1 ≤ l.length := by
      have hle := (l.dropWhile_sublist (fun c => !jsWhitespace c)).length_le
      rw [h] at hle
      simpa using hle
    have hr : (r.dropWhile jsWhitespace).length ≤ r.length :=
      (r.dropWhile_sublist jsWhitespace).length_le
    omega

/-- `transcript.split(/\s+/).length`, the word count used throughout the
pipeline (`transcription.service.js`). -/
def jsWordCount (s : String) : ℕ :=
  (jsSplitWs s.toList).length

/-- JavaScript `x % m` for the nonnegative durations handled by the
pipeline (where it coincides with floor-remainder). -/
def jsMod (a m : ℚ) : ℚ := a - m * ⌊a / m⌋

/-- JavaScript `s.padStart(2, '0')`. -/
def padStart2 (s : String) : String :=
  if s.length < 2 then String.mk (List.replicate (2 - s.length) '0') ++ s
  else s

/-- JavaScript `s.trim()`: strip leading and trailing whitespace. -/
def jsTrim (s : String) : String :=
  String.mk (((s.toList.dropWhile jsWhitespace).reverse.dropWhile
    jsWhitespace).reverse)

/-- JavaScript `s.startsWith(pre)`. -/
def jsStartsWith (s pre : String) : Bool :=
  pre.toList.isPrefixOf s.toList

/-! ## `AudioChunkingService` (`audio-chucking.service.js`)

The constructor reads `Number(process.env.AUTO_CHUNK_DURATION) || 30`.
`Number(...)` of an unset or non-numeric variable is `NaN`; `||` replaces a
falsy left operand (`NaN` or `0`) by `30`. -/

/-- Outcome of JavaScript `Number(process.env.AUTO_CHUNK_DURATION)`:
either `NaN` (unset / non-numeric) or a numeric value. -/
inductive JsNum where
  | nan : JsNum
  | num (q : ℚ) : JsNum
deriving DecidableEq

/-- `this.chunkDuration = Number(process.env.AUTO_CHUNK_DURATION) || 30`
(constructor of `AudioChunkingService`, `audio-chucking.service.js:12`). -/
def chunkDurationConfig : JsNum → ℚ
  | .nan => 30
  | .num q => if q = 0 then 30 else q

/-- An audio chunk as pushed by `splitAudioIntoChunks` (the `path` field,
an uuid-bearing file name, is not modelled). -/
structure AudioChunk where
  index : ℕ
  startTime : ℚ
  endTime : ℚ
  duration : ℚ
deriving Repr, DecidableEq

/-- The chunk pushed at loop iteration `i` of `splitAudioIntoChunks`
(`audio-chucking.service.js:54-76`). -/
def chunkAt (duration chunkDuration : ℚ) (i : ℕ) : AudioChunk :=
  let startTime := (i : ℚ) * chunkDuration
  { index := i
    startTime := startTime
    endTime := min (startTime + chunkDuration) duration
    duration := min chunkDuration (duration - startTime) }

/-- `splitAudioIntoChunks` (`audio-chucking.service.js:47-83`):
`totalChunks = Math.ceil(duration / chunkDuration)` chunks, pushed in loop
order `i = 0, …, totalChunks - 1`. -/
def splitAudioIntoChunks (duration chunkDuration : ℚ) : List AudioChunk :=
  (List.range (⌈duration / chunkDuration⌉).toNat).map
    (chunkAt duration chunkDuration)

/-! ## `STTService` and `RAGTranscriptionService` data -/

/-- A chunk transcription as pushed by `transcribeAudioChunks`
(`stt.service.js:131-154`); `errorMessage` is present only on failure, and
the success-path `timestamp` field (wall-clock ISO string) is not
modelled. -/
structure ChunkTranscription where
  text : String
  startTime : ℚ
  endTime : ℚ
  duration : ℚ
  chunkIndex : ℕ
  error : Bool
  errorMessage : Option String
deriving Repr, DecidableEq

namespace RAGTranscriptionService

/-- `formatTimestamp` (`transcription.service.js:134-144`): `hh:mm:ss`
when the hour part is positive, else `mm:ss`, each part zero-padded to two
digits. -/
def formatTimestamp (seconds : ℚ) : String :=
  let hrs : ℤ := ⌊seconds / 3600⌋
  let mins : ℤ := ⌊jsMod seconds 3600 / 60⌋
  let secs : ℤ := ⌊jsMod seconds 60⌋
  if 0 < hrs then
    padStart2 (toString hrs) ++ ":" ++ padStart2 (toString mins) ++ ":" ++
      padStart2 (toString secs)
  else
    padStart2 (toString mins) ++ ":" ++ padStart2 (toString secs)

/-- `combineTranscriptions` (`transcription.service.js:125-132`): map each
chunk to `[<timestamp>] <text>` and join with a blank line, in the order
of the input list. -/
def combineTranscriptions (ts : List ChunkTranscription) : String :=
  String.intercalate "\n\n"
    (ts.map fun c => "[" ++ formatTimestamp c.startTime ++ "] " ++ c.text)

/-- Modelled from the spec (Transcript Assembler, §4.3): "assembly must
sort/re-order by `index` before joining" — insertion step of the sort. -/
def insertByIndex (c : ChunkTranscription) :
    List ChunkTranscription → List ChunkTranscription
  | [] => [c]
  | x :: xs =>
      if c.chunkIndex ≤ x.chunkIndex then c :: x :: xs
      else x :: insertByIndex c xs

/-- Modelled from the spec (Transcript Assembler, §4.3): stable sort of
the chunk list by `index`. -/
def sortByIndex : List ChunkTranscription → List ChunkTranscription
  | [] => []
  | x :: xs => insertByIndex x (sortByIndex xs)

/-- Modelled from the spec (Transcript Assembler, §4.3): the assembler the
spec describes, which re-orders by `index` before joining. -/
def specAssemble (ts : List ChunkTranscription) : String :=
  combineTranscriptions (sortByIndex ts)

end RAGTranscriptionService

namespace STTService

/-- `formatTimestamp` (`stt.service.js:171-181`): like the assembler's
version but with the hour part and the minute part of the `mm:ss` form
left unpadded. -/
def formatTimestamp (seconds : ℚ) : String :=
  let hrs : ℤ := ⌊seconds / 3600⌋
  let mins : ℤ := ⌊jsMod seconds 3600 / 60⌋
  let secs : ℤ := ⌊jsMod seconds 60⌋
  if 0 < hrs then
    toString hrs ++ ":" ++ padStart2 (toString mins) ++ ":" ++
      padStart2 (toString secs)
  else
    toString mins ++ ":" ++ padStart2 (toString secs)

/-- The placeholder text pushed for a chunk whose transcription failed
(`stt.service.js:147`). -/
def failurePlaceholder (c : AudioChunk) (msg : String) : String :=
  "[Audio segment " ++ formatTimestamp c.startTime ++ "-" ++
    formatTimestamp c.endTime ++ " could not be transcribed: " ++ msg ++ "]"

/-- The `ChunkTranscription` pushed for chunk `c` by the loop of
`transcribeAudioChunks` (`stt.service.js:125-156`), given the outcome of
`transcribeAudioChunk` on it. -/
def chunkOutcome (result : AudioChunk → Except String String)
    (c : AudioChunk) : ChunkTranscription :=
  match result c with
  | .ok text =>
      { text := text, startTime := c.startTime, endTime := c.endTime
        duration := c.duration, chunkIndex := c.index, error := false
        errorMessage := none }
  | .error msg =>
      { text := failurePlaceholder c msg, startTime := c.startTime
        endTime := c.endTime, duration := c.duration, chunkIndex := c.index
        error := true, errorMessage := some msg }

/-- The summary object returned by `transcribeAudioChunks`
(`stt.service.js:160-168`). -/
structure TranscriptionSummary where
  totalChunks : ℕ
  successfulChunks : ℕ
  failedChunks : ℕ
  successRate : ℚ
deriving Repr, DecidableEq

/-- `transcribeAudioChunks` (`stt.service.js:115-169`): reject an empty
chunk list; otherwise transcribe the chunks sequentially in list order,
catching each failure as a placeholder entry, and return the ordered list
with a success summary. `result c` is the outcome of the remote
`transcribeAudioChunk` call on chunk `c`. -/
def transcribeAudioChunks (result : AudioChunk → Except String String)
    (chunks : List AudioChunk) :
    Except String (List ChunkTranscription × TranscriptionSummary) :=
  if chunks.isEmpty then .error "Invalid chunks array provided"
  else
    let transcriptions := chunks.map (chunkOutcome result)
    let successfulChunks := chunks.countP fun c => (result c).isOk
    .ok (transcriptions,
      { totalChunks := chunks.length
        successfulChunks := successfulChunks
        failedChunks := chunks.length - successfulChunks
        successRate := ((successfulChunks : ℚ) / (chunks.length : ℚ)) * 100 })

/-- The backoff delay computed before retrying attempt `attempt + 1`
(`stt.service.js:108`): `Math.min(2000 * Math.pow(2, attempt - 1), 30000)`
milliseconds. -/
def backoffDelay (attempt : ℕ) : ℕ :=
  min (2000 * 2 ^ (attempt - 1)) 30000

/-- The retry loop of `transcribeAudioChunk` (`stt.service.js:70-112`),
with `result a` the outcome of the remote call on attempt `a` (each and
every caught failure is retried; the loop never inspects the error). The
value is `(outcome, attempts made, delays slept between attempts)`. `fuel`
is `maxRetries` at the top-level call, so the fuel-exhausted branch is
never reached from `transcribeAudioChunk` with `1 ≤ maxRetries`. -/
def sttLoop (result : ℕ → Except String String) (maxRetries : ℕ) :
    ℕ → ℕ → Except String String × ℕ × List ℕ
  | attempt, 0 => (.error "loop exhausted", attempt - 1, [])
  | attempt, fuel + 1 =>
      match result attempt with
      | .ok t => (.ok t, attempt, [])
      | .error e =>
          if attempt = maxRetries then
            (.error ("STT transcription failed after " ++ toString maxRetries
                ++ " attempts: " ++ e), attempt, [])
          else
            let rest := sttLoop result maxRetries (attempt + 1) fuel
            (rest.1, rest.2.1, backoffDelay attempt :: rest.2.2)

/-- `transcribeAudioChunk` (`stt.service.js:62-113`): missing API key and
local file validation fail before any attempt; otherwise the retry loop
runs starting at attempt 1. -/
def transcribeAudioChunk (hasApiKey : Bool)
    (validation : Except String Unit)
    (result : ℕ → Except String String) (maxRetries : ℕ) :
    Except String String × ℕ × List ℕ :=
  if hasApiKey = false then
    (.error "Hugging Face API key not configured for STT service", 0, [])
  else
    match validation with
    | .error e => (.error e, 0, [])
    | .ok _ => sttLoop result maxRetries 1 maxRetries

end STTService

namespace RAGTranscriptionService

/-- The value assembled by `transcribeWithSTT`/`transcribeVideo`
(`transcription.service.js:99-105` and `212-219`). -/
structure TranscriptionResult where
  transcript : String
  summary : String
  duration : ℚ
  wordCount : ℕ
  chunkCount : ℕ
  chunks : List ChunkTranscription
deriving Repr, DecidableEq

/-- The successful outcome of `transcribeWithSTT`
(`transcription.service.js:65-123`). -/
structure SttSuccess where
  transcript : String
  chunks : List ChunkTranscription
  duration : ℚ
  wordCount : ℕ
  chunkCount : ℕ
deriving Repr, DecidableEq

/-- `fallbackToGemini` (`transcription.service.js:238-254`): ask the text
model for a fabricated transcript (`gemini` is that remote call's
outcome) and wrap it with fixed metadata. -/
def fallbackToGemini (gemini : Except String String) :
    Except String TranscriptionResult :=
  match gemini with
  | .error e => .error e
  | .ok transcript =>
      .ok { transcript := transcript
            summary := "Summary generated using fallback service"
            duration := 300
            wordCount := jsWordCount transcript
            chunkCount := 1
            chunks := [] }

/-- `transcribeVideo` (`transcription.service.js:176-236`): run download
then STT; any error from that pipeline is caught and answered with
`fallbackToGemini`. `summary` is the result of `generateSummaryWithRAG`,
which cannot throw (it has its own internal fallback,
`transcription.service.js:146-168`). -/
def transcribeVideo (download : Except String Unit)
    (stt : Except String SttSuccess) (summary : String)
    (gemini : Except String String) : Except String TranscriptionResult :=
  match download with
  | .error _ => fallbackToGemini gemini
  | .ok _ =>
      match stt with
      | .error _ => fallbackToGemini gemini
      | .ok r =>
          .ok { transcript := r.transcript, summary := summary
                duration := r.duration, wordCount := r.wordCount
                chunkCount := r.chunkCount, chunks := r.chunks }

/-- The `job.updateProgress` values emitted by `transcribeVideo` on its
success path, in program order (`transcription.service.js:190-208`). -/
def transcribeVideoProgress : List (String × ℕ) :=
  [("download", 10), ("chunking", 30), ("transcription", 60),
   ("summary", 80), ("completed", 100)]

end RAGTranscriptionService

namespace VideoProcessor

/-- The `job.updateProgress` values emitted during one successful
`processVideo` attempt, in program order (`video.processor.js:134-198`,
with the nested `transcribeVideo` reports in the middle). -/
def processVideoProgress : List (String × ℕ) :=
  ("started", 5) :: ("transcription", 30) ::
    RAGTranscriptionService.transcribeVideoProgress ++
      [("summary", 70), ("embeddings", 90), ("completed", 100)]

/-- Outcome of the race guard at the head of `processVideo`
(`video.processor.js:100-127`). -/
inductive GuardOutcome where
  | shortCircuitCompleted : GuardOutcome
  | rejectDuplicate : GuardOutcome
  | proceed : GuardOutcome
deriving Repr, DecidableEq

/-- The race guard of `processVideo` (`video.processor.js:100-127`):
`status` is the backing VideoRecord's status and `msSinceUpdate` is
`new Date() - video.updatedAt` in milliseconds. -/
def processVideoGuard (status : String) (msSinceUpdate : ℤ) : GuardOutcome :=
  if status ≠ "queued" then
    if status = "completed" then .shortCircuitCompleted
    else if status = "processing" then
      if msSinceUpdate < 30 * 60 * 1000 then .rejectDuplicate
      else .proceed
    else .proceed
  else .proceed

/-- A JavaScript value of one of the shapes a JSON-carried job payload
field can take. -/
inductive JsVal where
  | undef : JsVal
  | jsNull : JsVal
  | str (s : String) : JsVal
  | num (q : ℚ) : JsVal
  | boolean (b : Bool) : JsVal
deriving Repr, DecidableEq

/-- JavaScript truthiness of a `JsVal`. -/
def truthy : JsVal → Bool
  | .undef => false
  | .jsNull => false
  | .str s => decide (s ≠ "")
  | .num q => decide (q ≠ 0)
  | .boolean b => b

/-- JavaScript `typeof v === 'string'`. -/
def isString : JsVal → Bool
  | .str _ => true
  | _ => false

/-- JavaScript nullishness (`undefined` or `null`): the values on which
optional chaining (`?.`) short-circuits, and the reading of "absent" for a
JSON-carried field. -/
def nullish : JsVal → Bool
  | .undef => true
  | .jsNull => true
  | _ => false

/-- The raw `job.data` payload validated by `validateJobData`. -/
structure JobData where
  videoId : JsVal
  cloudinaryUrl : JsVal
  language : JsVal
deriving Repr, DecidableEq

/-- An error raised by `validateJobData`: either its own thrown
`Error('Job validation failed: …')` or a JavaScript `TypeError` from a
member access on a non-string field. -/
inductive JsError where
  | validation (msg : String) : JsError
  | typeError (msg : String) : JsError
deriving Repr, DecidableEq

/-- The cleaned job payload returned by `validateJobData`
(`video.processor.js:37-41`). -/
structure ValidatedJobData where
  videoId : String
  cloudinaryUrl : String
  language : String
deriving Repr, DecidableEq

/-- `validateJobData` (`video.processor.js:9-42`). `isValidObjectId`
stands for `mongoose.Types.ObjectId.isValid` on strings. Error strings
are collected in source order; `jobData.cloudinaryUrl.startsWith(...)` at
line 20 throws a `TypeError` when the field is not a string, and the
return expression `jobData.language?.trim() || 'english'` throws a
`TypeError` for a non-nullish non-string `language` (reachable only when
`language` is falsy, since truthy non-strings are caught at line 24). -/
def validateJobData (isValidObjectId : String → Bool) (jd : JobData) :
    Except JsError ValidatedJobData :=
  let e1 : List String :=
    if !truthy jd.videoId || !isString jd.videoId then
      ["Invalid or missing videoId"]
    else []
  let e2 : List String :=
    if !truthy jd.cloudinaryUrl || !isString jd.cloudinaryUrl then
      ["Invalid or missing cloudinaryUrl"]
    else []
  match jd.cloudinaryUrl with
  | .undef => .error (.typeError
      "Cannot read properties of undefined (reading startsWith)")
  | .jsNull => .error (.typeError
      "Cannot read properties of null (reading startsWith)")
  | .num _ => .error (.typeError
      "jobData.cloudinaryUrl.startsWith is not a function")
  | .boolean _ => .error (.typeError
      "jobData.cloudinaryUrl.startsWith is not a function")
  | .str u =>
    let e3 : List String :=
      if !jsStartsWith u "https://" then ["Invalid cloudinaryUrl format"]
      else []
    let e4 : List String :=
      if truthy jd.language && !isString jd.language then
        ["Invalid language format"]
      else []
    -- line 29: `jobData.videoId && !mongoose.Types.ObjectId.isValid(...)`;
    -- on truthy non-strings mongoose accepts numbers and rejects booleans,
    -- but either way `e1` has already fired for them.
    let e5 : List String :=
      match jd.videoId with
      | .str v =>
          if decide (v ≠ "") && !isValidObjectId v then
            ["Invalid videoId format"]
          else []
      | .boolean b => if b then ["Invalid videoId format"] else []
      | _ => []
    let errors := e1 ++ e2 ++ e3 ++ e4 ++ e5
    if errors.isEmpty then
      match jd.language with
      | .num _ => .error (.typeError "jobData.language.trim is not a function")
      | .boolean _ =>
          .error (.typeError "jobData.language.trim is not a function")
      | lang =>
          match jd.videoId with
          | .str v =>
              .ok { videoId := jsTrim v
                    cloudinaryUrl := jsTrim u
                    language :=
                      match lang with
                      | .str l => if jsTrim l = "" then "english" else jsTrim l
                      | _ => "english" }
          | _ => .error (.typeError "jobData.videoId.trim is not a function")
    else
      .error (.validation
        ("Job validation failed: " ++ String.intercalate ", " errors))

end VideoProcessor

/-! ## Theorems -/

/-- Every chunk of `splitAudioIntoChunks` is the one its loop iteration
builds. -/
theorem splitAudioIntoChunks_get (D d : ℚ) (i : ℕ)
    (h : i < (splitAudioIntoChunks D d).length) :
    (splitAudioIntoChunks D d).get ⟨i, h⟩ = chunkAt D d i := by
  simp [splitAudioIntoChunks]

/-- The list of chunks has `⌈D / d⌉.toNat` elements. -/
theorem splitAudioIntoChunks_length (D d : ℚ) :
    (splitAudioIntoChunks D d).length = (⌈D / d⌉).toNat := by
  simp [splitAudioIntoChunks]

/-- An index below the chunk count starts strictly inside the audio. -/
theorem index_mul_lt_duration {D d : ℚ} (hd : 0 < d) {i : ℕ}
    (hi : (i : ℤ) < ⌈D / d⌉) : (i : ℚ) * d < D := by
  have h1 : ((i : ℚ) + 1) ≤ (⌈D / d⌉ : ℚ) := by exact_mod_cast hi
  have h2 : (⌈D / d⌉ : ℚ) < D / d + 1 := Int.ceil_lt_add_one (D / d)
  have h3 : (i : ℚ) < D / d := by linarith
  exact (lt_div_iff₀ hd).mp h3

/-- Two distinct chunk intervals cannot both contain `t`. -/
theorem chunk_intervals_disjoint_aux {d : ℚ} (hd : 0 < d) {i j : ℕ}
    (hij : i < j) {t D : ℚ} (h1 : t < min ((i : ℚ) * d + d) D)
    (h2 : (j : ℚ) * d ≤ t) : False := by
  have hij' : (i : ℚ) + 1 ≤ (j : ℚ) := by exact_mod_cast hij
  have hmin : t < (i : ℚ) * d + d := lt_of_lt_of_le h1 (min_le_left _ _)
  nlinarith

/-- C2. For every `totalDuration D > 0` and `chunkDuration d > 0`, the
chunks produced by `splitAudioIntoChunks` satisfy: chunk `i` has
`startTime = i * d` and `endTime = min (i * d + d) D`; consecutive ranges
are contiguous; the `[startTime, endTime)` ranges are pairwise disjoint and
together cover `[0, D)` exactly; and there are `⌈D / d⌉` chunks in total. -/
theorem splitAudioIntoChunks_partition (D d : ℚ) (hD : 0 < D) (hd : 0 < d) :
    (splitAudioIntoChunks D d).length = (⌈D / d⌉).toNat ∧
    (∀ i, ∀ h : i < (splitAudioIntoChunks D d).length,
        ((splitAudioIntoChunks D d).get ⟨i, h⟩).index = i ∧
        ((splitAudioIntoChunks D d).get ⟨i, h⟩).startTime = (i : ℚ) * d ∧
        ((splitAudioIntoChunks D d).get ⟨i, h⟩).endTime = min ((i : ℚ) * d + d) D) ∧
    (∀ i, ∀ h : i + 1 < (splitAudioIntoChunks D d).length,
        ((splitAudioIntoChunks D d).get ⟨i, Nat.lt_of_succ_lt h⟩).endTime =
          ((splitAudioIntoChunks D d).get ⟨i + 1, h⟩).startTime) ∧
    (∀ t : ℚ, (0 ≤ t ∧ t < D) ↔
        ∃ i, ∃ h : i < (splitAudioIntoChunks D d).length,
          ((splitAudioIntoChunks D d).get ⟨i, h⟩).startTime ≤ t ∧
          t < ((splitAudioIntoChunks D d).get ⟨i, h⟩).endTime) ∧
    (∀ t : ℚ, ∀ i j, ∀ hi : i < (splitAudioIntoChunks D d).length,
        ∀ hj : j < (splitAudioIntoChunks D d).length,
        ((splitAudioIntoChunks D d).get ⟨i, hi⟩).startTime ≤ t →
        t < ((splitAudioIntoChunks D d).get ⟨i, hi⟩).endTime →
        ((splitAudioIntoChunks D d).get ⟨j, hj⟩).startTime ≤ t →
        t < ((splitAudioIntoChunks D d).get ⟨j, hj⟩).endTime → i = j) := by
  refine ⟨splitAudioIntoChunks_length D d, ?_, ?_, ?_, ?_⟩
  · intro i h
    rw [splitAudioIntoChunks_get]
    simp [chunkAt]
  · intro i h
    have hlen := splitAudioIntoChunks_length D d
    have hsucc : ((i : ℤ) + 1) < ⌈D / d⌉ := by
      rw [hlen] at h; omega
    have hlt : ((i : ℚ) + 1) * d < D := by
      have := index_mul_lt_duration (D := D) hd (i := i + 1) (by push_cast; omega)
      push_cast at this ⊢
      linarith
    rw [splitAudioIntoChunks_get, splitAudioIntoChunks_get]
    simp only [chunkAt]
    rw [min_eq_left (by push_cast at hlt ⊢; linarith)]
    push_cast
    ring
  · intro t
    constructor
    · rintro ⟨ht0, htD⟩
      have hdiv0 : (0 : ℚ) ≤ t / d := div_nonneg ht0 hd.le
      have hfl0 : 0 ≤ ⌊t / d⌋ := Int.floor_nonneg.mpr hdiv0
      refine ⟨(⌊t / d⌋).toNat, ?_, ?_⟩
      · rw [splitAudioIntoChunks_length]
        have hstrict : ⌊t / d⌋ < ⌈D / d⌉ := by
          by_contra hcon
          push_neg at hcon
          have h1 : (⌈D / d⌉ : ℚ) ≤ ⌊t / d⌋ := by exact_mod_cast hcon
          have h2 : (⌊t / d⌋ : ℚ) ≤ t / d := Int.floor_le _
          have h3 : D / d ≤ (⌈D / d⌉ : ℚ) := Int.le_ceil _
          have h4 : t / d < D / d := by
            rw [div_lt_div_iff_of_pos_right hd]; exact htD
          linarith
        omega
      · rw [splitAudioIntoChunks_get]
        simp only [chunkAt]
        have hcast : ((⌊t / d⌋).toNat : ℚ) = ((⌊t / d⌋ : ℤ) : ℚ) := by
          exact_mod_cast Int.toNat_of_nonneg hfl0
        constructor
        · rw [hcast]
          have h2 : (⌊t / d⌋ : ℚ) ≤ t / d := Int.floor_le _
          calc (⌊t / d⌋ : ℚ) * d ≤ t / d * d := by
                exact mul_le_mul_of_nonneg_right h2 hd.le
            _ = t := div_mul_cancel₀ t hd.ne.symm
        · rw [hcast]
          refine lt_min ?_ htD
          have h2 : t / d < (⌊t / d⌋ : ℚ) + 1 := Int.lt_floor_add_one _
          have h3 : t / d * d < ((⌊t / d⌋ : ℚ) + 1) * d :=
            mul_lt_mul_of_pos_right h2 hd
          rw [div_mul_cancel₀ t hd.ne.symm] at h3
          linarith
    · rintro ⟨i, h, hle, hlt⟩
      rw [splitAudioIntoChunks_get] at hle hlt
      simp only [chunkAt] at hle hlt
      have h0 : (0 : ℚ) ≤ (i : ℚ) * d :=
        mul_nonneg (by positivity) hd.le
      exact ⟨le_trans h0 hle, lt_of_lt_of_le hlt (min_le_right _ _)⟩
  · intro t i j hi hj hi1 hi2 hj1 hj2
    rw [splitAudioIntoChunks_get] at hi1 hi2 hj1 hj2
    simp only [chunkAt] at hi1 hi2 hj1 hj2
    rcases lt_trichotomy i j with hij | hij | hij
    · exact absurd (chunk_intervals_disjoint_aux hd hij hi2 hj1) (by simp)
    · exact hij
    · exact absurd (chunk_intervals_disjoint_aux hd hij hj2 hi1) (by simp)

/-- C2 witness: the spec's happy-path scenario, a 65-second source with
30-second chunks. -/
theorem splitAudioIntoChunks_partition_witness :
    (0 : ℚ) < 65 ∧ (0 : ℚ) < 30 ∧
    ((splitAudioIntoChunks 65 30).length = (⌈(65 : ℚ) / 30⌉).toNat ∧
    (∀ i, ∀ h : i < (splitAudioIntoChunks 65 30).length,
        ((splitAudioIntoChunks 65 30).get ⟨i, h⟩).index = i ∧
        ((splitAudioIntoChunks 65 30).get ⟨i, h⟩).startTime = (i : ℚ) * 30 ∧
        ((splitAudioIntoChunks 65 30).get ⟨i, h⟩).endTime = min ((i : ℚ) * 30 + 30) 65) ∧
    (∀ i, ∀ h : i + 1 < (splitAudioIntoChunks 65 30).length,
        ((splitAudioIntoChunks 65 30).get ⟨i, Nat.lt_of_succ_lt h⟩).endTime =
          ((splitAudioIntoChunks 65 30).get ⟨i + 1, h⟩).startTime) ∧
    (∀ t : ℚ, (0 ≤ t ∧ t < 65) ↔
        ∃ i, ∃ h : i < (splitAudioIntoChunks 65 30).length,
          ((splitAudioIntoChunks 65 30).get ⟨i, h⟩).startTime ≤ t ∧
          t < ((splitAudioIntoChunks 65 30).get ⟨i, h⟩).endTime) ∧
    (∀ t : ℚ, ∀ i j, ∀ hi : i < (splitAudioIntoChunks 65 30).length,
        ∀ hj : j < (splitAudioIntoChunks 65 30).length,
        ((splitAudioIntoChunks 65 30).get ⟨i, hi⟩).startTime ≤ t →
        t < ((splitAudioIntoChunks 65 30).get ⟨i, hi⟩).endTime →
        ((splitAudioIntoChunks 65 30).get ⟨j, hj⟩).startTime ≤ t →
        t < ((splitAudioIntoChunks 65 30).get ⟨j, hj⟩).endTime → i = j)) :=
  ⟨by norm_num, by norm_num,
    splitAudioIntoChunks_partition 65 30 (by norm_num) (by norm_num)⟩

/-- C4 counterexample: a configured chunk duration of 5 seconds is used
as-is by the constructor, outside the claimed interval `[10, 300]` —
`audio-chucking.service.js:12` performs no clamping. -/
theorem chunkDurationConfig_not_clamped_cex :
    chunkDurationConfig (JsNum.num 5) = 5 ∧
    ¬ (10 ≤ chunkDurationConfig (JsNum.num 5) ∧
        chunkDurationConfig (JsNum.num 5) ≤ 300) := by
  refine ⟨by norm_num [chunkDurationConfig], ?_⟩
  norm_num [chunkDurationConfig]

/-- C4 amended: the chunk duration used by the segmenter is the configured
numeric value unchanged (no clamping); the default 30 applies exactly when
the configured value is unset/non-numeric (`NaN`) or `0` (both falsy for
JavaScript `||`). -/
theorem chunkDurationConfig_amended (q : ℚ) (hq : q ≠ 0) :
    chunkDurationConfig (JsNum.num q) = q ∧
    chunkDurationConfig JsNum.nan = 30 ∧
    chunkDurationConfig (JsNum.num 0) = 30 := by
  refine ⟨?_, rfl, by norm_num [chunkDurationConfig]⟩
  simp [chunkDurationConfig, hq]

/-- C4 amended, witness at the configured value 5. -/
theorem chunkDurationConfig_amended_witness :
    (5 : ℚ) ≠ 0 ∧
    (chunkDurationConfig (JsNum.num 5) = 5 ∧
      chunkDurationConfig JsNum.nan = 30 ∧
      chunkDurationConfig (JsNum.num 0) = 30) :=
  ⟨by norm_num, chunkDurationConfig_amended 5 (by norm_num)⟩

namespace RAGTranscriptionService

/-- Inserting an element below every index of a list puts it in front. -/
theorem insertByIndex_of_le (c : ChunkTranscription)
    (ts : List ChunkTranscription)
    (h : ∀ x ∈ ts, c.chunkIndex ≤ x.chunkIndex) :
    insertByIndex c ts = c :: ts := by
  cases ts with
  | nil => rfl
  | cons x xs =>
      simp [insertByIndex, h x (List.mem_cons_self x xs)]

/-- The spec's sort leaves an already index-sorted list unchanged. -/
theorem sortByIndex_of_sorted (ts : List ChunkTranscription)
    (h : ts.Pairwise fun a b => a.chunkIndex ≤ b.chunkIndex) :
    sortByIndex ts = ts := by
  induction ts with
  | nil => rfl
  | cons x xs ih =>
      rw [List.pairwise_cons] at h
      rw [sortByIndex, ih h.2, insertByIndex_of_le x xs h.1]

/-- C1 counterexample: `combineTranscriptions` does not re-order by
`index` — on a list whose chunks arrive out of index order, the segment of
index 1 precedes the segment of index 0 in the joined transcript, and the
output differs from the spec's sort-before-joining assembler. -/
theorem combineTranscriptions_unsorted_cex :
    combineTranscriptions
        [⟨"beta", 30, 60, 30, 1, false, none⟩,
         ⟨"alpha", 0, 30, 30, 0, false, none⟩] =
      "[00:30] beta\n\n[00:00] alpha" ∧
    combineTranscriptions
        [⟨"beta", 30, 60, 30, 1, false, none⟩,
         ⟨"alpha", 0, 30, 30, 0, false, none⟩] ≠
      specAssemble
        [⟨"beta", 30, 60, 30, 1, false, none⟩,
         ⟨"alpha", 0, 30, 30, 0, false, none⟩] := by
  have h30 : formatTimestamp 30 = "00:30" := by
    have h1 : ⌊(30 : ℚ) / 3600⌋ = 0 := by norm_num
    have h2 : ⌊jsMod 30 3600 / 60⌋ = (0 : ℤ) := by norm_num [jsMod]
    have h3 : ⌊jsMod 30 60⌋ = (30 : ℤ) := by norm_num [jsMod]
    simp only [formatTimestamp, h1, h2, h3]
    rfl
  have h0 : formatTimestamp 0 = "00:00" := by
    have h1 : ⌊(0 : ℚ) / 3600⌋ = 0 := by norm_num
    have h2 : ⌊jsMod 0 3600 / 60⌋ = (0 : ℤ) := by norm_num [jsMod]
    have h3 : ⌊jsMod 0 60⌋ = (0 : ℤ) := by norm_num [jsMod]
    simp only [formatTimestamp, h1, h2, h3]
    rfl
  have e1 : combineTranscriptions
      [⟨"beta", 30, 60, 30, 1, false, none⟩,
       ⟨"alpha", 0, 30, 30, 0, false, none⟩] =
      "[00:30] beta\n\n[00:00] alpha" := by
    simp only [combineTranscriptions, List.map, h30, h0]
    rfl
  have e2 : specAssemble
      [⟨"beta", 30, 60, 30, 1, false, none⟩,
       ⟨"alpha", 0, 30, 30, 0, false, none⟩] =
      "[00:00] alpha\n\n[00:30] beta" := by
    simp only [specAssemble, sortByIndex, insertByIndex,
      combineTranscriptions, List.map, h30, h0]
    rfl
  refine ⟨e1, ?_⟩
  rw [e1, e2]
  decide

/-- C1 amended: `combineTranscriptions` joins the segments in the order of
its input list, so its transcript lists segments in ascending `index`
order exactly when the input is already sorted by `index` (which the
sequential fan-out of `transcribeAudioChunks` produces); on such input it
agrees with the spec's sort-before-joining assembler. -/
theorem combineTranscriptions_sorted_amended (ts : List ChunkTranscription)
    (h : ts.Pairwise fun a b => a.chunkIndex ≤ b.chunkIndex) :
    combineTranscriptions ts = specAssemble ts := by
  rw [specAssemble, sortByIndex_of_sorted ts h]

/-- C1 amended, witness on a two-chunk index-sorted list. -/
theorem combineTranscriptions_sorted_amended_witness :
    ([⟨"alpha", 0, 30, 30, 0, false, none⟩,
      ⟨"beta", 30, 60, 30, 1, false, none⟩] :
        List ChunkTranscription).Pairwise
      (fun a b => a.chunkIndex ≤ b.chunkIndex) ∧
    combineTranscriptions
        [⟨"alpha", 0, 30, 30, 0, false, none⟩,
         ⟨"beta", 30, 60, 30, 1, false, none⟩] =
      specAssemble
        [⟨"alpha", 0, 30, 30, 0, false, none⟩,
         ⟨"beta", 30, 60, 30, 1, false, none⟩] :=
  ⟨by simp, combineTranscriptions_sorted_amended _ (by simp)⟩

end RAGTranscriptionService

namespace STTService

/-- C3. For every non-empty chunk list, `transcribeAudioChunks` never
aborts on a chunk failure: it returns one entry per input chunk at that
chunk's position (a failed chunk carrying the placeholder text with the
formatted time range and error message, `error = true`), and a summary
with `totalChunks` the number of chunks,
`successfulChunks + failedChunks = totalChunks` and
`successRate = successfulChunks / totalChunks * 100`. -/
theorem transcribeAudioChunks_partial_failure
    (result : AudioChunk → Except String String)
    (chunks : List AudioChunk) (h : chunks ≠ []) :
    ∃ ts summary,
      transcribeAudioChunks result chunks = .ok (ts, summary) ∧
      ts.length = chunks.length ∧
      (∀ i, ∀ hi : i < chunks.length, ∀ hi2 : i < ts.length,
          ts.get ⟨i, hi2⟩ = chunkOutcome result (chunks.get ⟨i, hi⟩)) ∧
      (∀ c msg, result c = .error msg →
          (chunkOutcome result c).error = true ∧
          (chunkOutcome result c).chunkIndex = c.index ∧
          (chunkOutcome result c).text =
            "[Audio segment " ++ formatTimestamp c.startTime ++ "-" ++
              formatTimestamp c.endTime ++ " could not be transcribed: " ++
              msg ++ "]") ∧
      summary.totalChunks = chunks.length ∧
      summary.successfulChunks + summary.failedChunks = summary.totalChunks ∧
      summary.successRate =
        (summary.successfulChunks : ℚ) / (summary.totalChunks : ℚ) * 100 := by
  have hne : chunks.isEmpty = false := by
    cases chunks with
    | nil => exact absurd rfl h
    | cons a l => rfl
  refine ⟨chunks.map (chunkOutcome result),
    { totalChunks := chunks.length
      successfulChunks := chunks.countP fun c => (result c).isOk
      failedChunks := chunks.length - chunks.countP fun c => (result c).isOk
      successRate := ((chunks.countP fun c => (result c).isOk : ℕ) : ℚ) /
        (chunks.length : ℚ) * 100 },
    ?_, by simp, ?_, ?_, rfl, ?_, rfl⟩
  · simp [transcribeAudioChunks, hne]
  · intro i hi hi2
    simp
  · intro c msg hr
    simp [chunkOutcome, hr, failurePlaceholder]
  · have hle : (chunks.countP fun c => (result c).isOk) ≤ chunks.length :=
      List.countP_le_length _
    simp only
    omega

/-- C3 witness: five 30-second chunks of a 150-second track with chunk
index 1 failing — the batch still returns five positioned entries and the
summary `total 5, successful 4, failed 1, successRate 80`. -/
theorem transcribeAudioChunks_partial_failure_witness :
    splitAudioIntoChunks 150 30 ≠ [] ∧
    (∃ ts summary,
      transcribeAudioChunks
          (fun c => if c.index = 1 then .error "boom" else .ok "hello world")
          (splitAudioIntoChunks 150 30) = .ok (ts, summary) ∧
      ts.length = (splitAudioIntoChunks 150 30).length ∧
      (∀ i, ∀ hi : i < (splitAudioIntoChunks 150 30).length,
          ∀ hi2 : i < ts.length,
          ts.get ⟨i, hi2⟩ =
            chunkOutcome
              (fun c => if c.index = 1 then .error "boom" else .ok "hello world")
              ((splitAudioIntoChunks 150 30).get ⟨i, hi⟩)) ∧
      (∀ c msg,
          (if c.index = 1 then Except.error "boom"
           else Except.ok "hello world") = .error msg →
          (chunkOutcome
              (fun c => if c.index = 1 then .error "boom" else .ok "hello world")
              c).error = true ∧
          (chunkOutcome
              (fun c => if c.index = 1 then .error "boom" else .ok "hello world")
              c).chunkIndex = c.index ∧
          (chunkOutcome
              (fun c => if c.index = 1 then .error "boom" else .ok "hello world")
              c).text =
            "[Audio segment " ++ formatTimestamp c.startTime ++ "-" ++
              formatTimestamp c.endTime ++ " could not be transcribed: " ++
              msg ++ "]") ∧
      summary.totalChunks = (splitAudioIntoChunks 150 30).length ∧
      summary.successfulChunks + summary.failedChunks = summary.totalChunks ∧
      summary.successRate =
        (summary.successfulChunks : ℚ) / (summary.totalChunks : ℚ) * 100) ∧
    Except.map Prod.snd
        (transcribeAudioChunks
          (fun c => if c.index = 1 then .error "boom" else .ok "hello world")
          (splitAudioIntoChunks 150 30)) =
      Except.ok ⟨5, 4, 1, 80⟩ := by
  have hne : splitAudioIntoChunks 150 30 ≠ [] := by
    have hceil0 : ⌈(150 : ℚ) / 30⌉ = 5 := by norm_num
    have hl : (splitAudioIntoChunks 150 30).length = 5 := by
      rw [splitAudioIntoChunks_length, hceil0]
      rfl
    intro hc
    rw [hc] at hl
    simp at hl
  refine ⟨hne, transcribeAudioChunks_partial_failure _ _ hne, ?_⟩
  have hceil : ⌈(150 : ℚ) / 30⌉ = 5 := by norm_num
  have h5 : (⌈(150 : ℚ) / 30⌉).toNat = 5 := by rw [hceil]; rfl
  simp only [transcribeAudioChunks, splitAudioIntoChunks, h5, List.range_succ,
    List.range_zero, List.nil_append, List.cons_append, List.map_cons,
    List.map_nil, List.isEmpty_cons, chunkAt]
  norm_num [List.countP_cons, chunkOutcome, Except.isOk, Except.toBool,
    Except.map]

/-- If the loop succeeds first at attempt `k`, it returns that text after
`k` attempts, sleeping the backoff delay after each failed attempt. -/
theorem sttLoop_first_success (result : ℕ → Except String String) (m : ℕ) :
    ∀ fuel attempt k t, attempt ≤ k → k < attempt + fuel → k ≤ m →
      result k = .ok t →
      (∀ a, attempt ≤ a → a < k → (result a).isOk = false) →
      sttLoop result m attempt fuel =
        (.ok t, k, (List.range' attempt (k - attempt)).map backoffDelay) := by
  intro fuel
  induction fuel with
  | zero => intro attempt k t h1 h2 _ _ _; omega
  | succ fuel ih =>
      intro attempt k t h1 h2 h3 hok hfail
      rcases Nat.eq_or_lt_of_le h1 with heq | hlt
      · subst heq
        simp [sttLoop, hok]
      · have hne : (result attempt).isOk = false :=
          hfail attempt le_rfl hlt
        obtain ⟨e, he⟩ : ∃ e, result attempt = .error e := by
          cases hres : result attempt with
          | ok t0 => rw [hres] at hne; simp [Except.isOk, Except.toBool] at hne
          | error e0 => exact ⟨e0, rfl⟩
        have hm : attempt ≠ m := by omega
        have hrest := ih (attempt + 1) k t hlt (by omega) h3 hok
          (fun a ha1 ha2 => hfail a (by omega) ha2)
        rw [sttLoop, he]
        simp only [hm, if_false]
        rw [hrest]
        have hrange : List.range' attempt (k - attempt) =
            attempt :: List.range' (attempt + 1) (k - (attempt + 1)) := by
          have hk : k - attempt = (k - (attempt + 1)) + 1 := by omega
          rw [hk, List.range'_succ]
        rw [hrange]
        rfl

/-- If every attempt up to `maxRetries` fails, the loop stops after
exactly `maxRetries` attempts with the wrapping error message, sleeping
the backoff delay after each non-final attempt. -/
theorem sttLoop_all_fail (result : ℕ → Except String String) (m : ℕ) :
    ∀ fuel attempt, attempt ≤ m → m < attempt + fuel →
      (∀ a, attempt ≤ a → a ≤ m → (result a).isOk = false) →
      ∃ e, result m = .error e ∧
        sttLoop result m attempt fuel =
          (.error ("STT transcription failed after " ++ toString m ++
              " attempts: " ++ e), m,
            (List.range' attempt (m - attempt)).map backoffDelay) := by
  intro fuel
  induction fuel with
  | zero => intro attempt h1 h2 _; omega
  | succ fuel ih =>
      intro attempt h1 h2 hfail
      rcases Nat.eq_or_lt_of_le h1 with heq | hlt
      · subst heq
        have hne : (result attempt).isOk = false :=
          hfail attempt le_rfl le_rfl
        obtain ⟨e, he⟩ : ∃ e, result attempt = .error e := by
          cases hres : result attempt with
          | ok t0 => rw [hres] at hne; simp [Except.isOk, Except.toBool] at hne
          | error e0 => exact ⟨e0, rfl⟩
        refine ⟨e, he, ?_⟩
        rw [sttLoop, he]
        simp
      · have hne : (result attempt).isOk = false :=
          hfail attempt le_rfl hlt.le
        obtain ⟨e, he⟩ : ∃ e, result attempt = .error e := by
          cases hres : result attempt with
          | ok t0 => rw [hres] at hne; simp [Except.isOk, Except.toBool] at hne
          | error e0 => exact ⟨e0, rfl⟩
        have hm : attempt ≠ m := by omega
        obtain ⟨e1, he1, hrest⟩ := ih (attempt + 1) hlt (by omega)
          (fun a ha1 ha2 => hfail a (by omega) ha2)
        refine ⟨e1, he1, ?_⟩
        rw [sttLoop, he]
        simp only [hm, if_false]
        rw [hrest]
        have hrange : List.range' attempt (m - attempt) =
            attempt :: List.range' (attempt + 1) (m - (attempt + 1)) := by
          have hk : m - attempt = (m - (attempt + 1)) + 1 := by omega
          rw [hk, List.range'_succ]
        rw [hrange]
        rfl

/-- C5 counterexample: a non-transient remote failure (an HTTP 400, an
invalid-audio-format class of error) is retried like any other failure —
with `maxRetries = 3` the call makes 3 attempts and sleeps the doubling
backoff delays 2000 ms and 4000 ms, instead of failing immediately
without retry. -/
theorem transcribeAudioChunk_retries_nontransient_cex :
    transcribeAudioChunk true (.ok ())
        (fun _ => .error "Request failed with status code 400") 3 =
      (.error ("STT transcription failed after 3 attempts: " ++
          "Request failed with status code 400"), 3, [2000, 4000]) := by
  rfl

/-- C5 amended: `transcribeAudioChunk` retries every caught failure of the
remote call uniformly (the loop never inspects the error, so transient and
non-transient failures alike are retried) up to `maxRetries` attempts,
sleeping `min (2000 * 2 ^ (attempt - 1)) 30000` ms after each failed
non-final attempt; a success at the first succeeding attempt `k` returns
after exactly `k` attempts; only the pre-call guards — missing API key,
local file validation — fail immediately with zero attempts. -/
theorem transcribeAudioChunk_uniform_retry
    (result : ℕ → Except String String) (m : ℕ) (hm : 1 ≤ m) :
    (∀ k t, 1 ≤ k → k ≤ m → result k = .ok t →
        (∀ a, 1 ≤ a → a < k → (result a).isOk = false) →
        transcribeAudioChunk true (.ok ()) result m =
          (.ok t, k, (List.range' 1 (k - 1)).map
              (fun a => min (2000 * 2 ^ (a - 1)) 30000))) ∧
    ((∀ a, 1 ≤ a → a ≤ m → (result a).isOk = false) →
        ∃ e, result m = .error e ∧
          transcribeAudioChunk true (.ok ()) result m =
            (.error ("STT transcription failed after " ++ toString m ++
                " attempts: " ++ e), m,
              (List.range' 1 (m - 1)).map
                (fun a => min (2000 * 2 ^ (a - 1)) 30000))) ∧
    (transcribeAudioChunk false (.ok ()) result m =
        (.error "Hugging Face API key not configured for STT service",
          0, [])) ∧
    (∀ e, transcribeAudioChunk true (.error e) result m =
        (.error e, 0, [])) := by
  refine ⟨?_, ?_, rfl, fun e => rfl⟩
  · intro k t h1 h2 hok hfail
    have := sttLoop_first_success result m m 1 k t h1 (by omega) h2 hok hfail
    rw [transcribeAudioChunk]
    simpa [backoffDelay] using this
  · intro hfail
    obtain ⟨e, he, hloop⟩ := sttLoop_all_fail result m m 1 hm (by omega) hfail
    refine ⟨e, he, ?_⟩
    rw [transcribeAudioChunk]
    simpa [backoffDelay] using hloop

/-- C5 amended, witness: failures on attempt 1, success on attempt 2 with
`maxRetries = 3` — two attempts, one 2000 ms backoff sleep. -/
theorem transcribeAudioChunk_uniform_retry_witness :
    (1 : ℕ) ≤ 3 ∧
    transcribeAudioChunk true (.ok ())
        (fun a => if a = 2 then .ok "text" else .error "ETIMEDOUT") 3 =
      (.ok "text", 2, [2000]) := by
  refine ⟨by norm_num, ?_⟩
  have h := (transcribeAudioChunk_uniform_retry
      (fun a => if a = 2 then .ok "text" else .error "ETIMEDOUT") 3
      (by norm_num)).1 2 "text" (by norm_num) (by norm_num) rfl ?_
  · simpa using h
  · intro a h1 h2
    have ha : a = 1 := by omega
    subst ha
    rfl

end STTService

namespace RAGTranscriptionService

/-- C7 counterexample: a download network failure does not propagate out
of `transcribeVideo` for the queue to retry — the attempt completes
successfully with the fabricated fallback data. -/
theorem transcribeVideo_swallows_download_error_cex :
    transcribeVideo (.error "Video download failed: getaddrinfo ENOTFOUND")
        (.error "unused") "a summary" (.ok "fabricated transcript") =
      .ok { transcript := "fabricated transcript"
            summary := "Summary generated using fallback service"
            duration := 300
            wordCount := jsWordCount "fabricated transcript"
            chunkCount := 1
            chunks := [] } :=
  rfl

/-- C7 amended: a download failure is caught inside `transcribeVideo` and
answered with the Gemini fallback — the attempt succeeds with substitute
data whenever the fallback call succeeds, and an error leaves
`transcribeVideo` only when the fallback call itself fails. -/
theorem transcribeVideo_download_error_fallback
    (e : String) (stt : Except String SttSuccess) (s t ge : String) :
    transcribeVideo (.error e) stt s (.ok t) =
      .ok { transcript := t
            summary := "Summary generated using fallback service"
            duration := 300
            wordCount := jsWordCount t
            chunkCount := 1
            chunks := [] } ∧
    transcribeVideo (.error e) stt s (.error ge) = .error ge :=
  ⟨rfl, rfl⟩

/-- C9. Whenever the download/chunking/STT pipeline fails — whatever the
cause — `transcribeVideo` catches the error and returns exactly the result
of `fallbackToGemini`: a prompt-generated transcript (not derived from the
video), the fixed summary string, duration 300, a word count computed from
the fabricated transcript, chunk count 1 and an empty chunk list. -/
theorem transcribeVideo_always_falls_back
    (download : Except String Unit) (stt : Except String SttSuccess)
    (s : String) (gemini : Except String String)
    (hfail : download.isOk = false ∨ stt.isOk = false) :
    transcribeVideo download stt s gemini = fallbackToGemini gemini ∧
    (∀ t, gemini = .ok t →
        fallbackToGemini gemini =
          .ok { transcript := t
                summary := "Summary generated using fallback service"
                duration := 300
                wordCount := jsWordCount t
                chunkCount := 1
                chunks := [] }) := by
  constructor
  · cases download with
    | error e => rfl
    | ok u =>
        cases stt with
        | error e => rfl
        | ok r =>
            rcases hfail with h | h <;>
              simp [Except.isOk, Except.toBool] at h
  · intro t ht
    subst ht
    rfl

/-- C9 witness: an STT pipeline failure with a succeeding Gemini fallback. -/
theorem transcribeVideo_always_falls_back_witness :
    ((Except.ok () : Except String Unit).isOk = false ∨
      (Except.error "No audio chunks were created" :
          Except String SttSuccess).isOk = false) ∧
    (transcribeVideo (Except.ok ()) (.error "No audio chunks were created")
        "a summary" (.ok "hello world") =
      fallbackToGemini (.ok "hello world") ∧
    (∀ t, (Except.ok "hello world" : Except String String) = .ok t →
        fallbackToGemini (.ok "hello world") =
          .ok { transcript := t
                summary := "Summary generated using fallback service"
                duration := 300
                wordCount := jsWordCount t
                chunkCount := 1
                chunks := [] })) :=
  ⟨Or.inr rfl,
    transcribeVideo_always_falls_back (.ok ())
      (.error "No audio chunks were created") "a summary"
      (.ok "hello world") (Or.inr rfl)⟩

end RAGTranscriptionService

namespace VideoProcessor

/-- C6 counterexample: the `job.updateProgress` values of a successful
attempt, in program order, are `5, 30, 10, 30, 60, 80, 100, 70, 90, 100` —
not monotonically non-decreasing: `processVideo` reports 30 before the
nested `transcribeVideo` restarts at 10, and `transcribeVideo` ends at 100
before `processVideo` reports 70 and 90. -/
theorem processVideoProgress_not_monotone_cex :
    processVideoProgress.map Prod.snd =
      [5, 30, 10, 30, 60, 80, 100, 70, 90, 100] ∧
    ¬ List.Chain' (fun a b => a ≤ b) (processVideoProgress.map Prod.snd) := by
  refine ⟨rfl, ?_⟩
  rw [show processVideoProgress.map Prod.snd =
      [5, 30, 10, 30, 60, 80, 100, 70, 90, 100] from rfl]
  simp [List.chain'_cons]

/-- C6 amended: every progress value reported during a successful attempt
is an integer percent between 0 and 100 (the sequence is however not
monotonic). -/
theorem processVideoProgress_values_in_range :
    ∀ p ∈ processVideoProgress, p.2 ≤ 100 := by
  decide

/-- C6 amended, witness at the first reported value. -/
theorem processVideoProgress_values_in_range_witness :
    ("started", 5) ∈ processVideoProgress ∧ (5 : ℕ) ≤ 100 :=
  ⟨by decide, processVideoProgress_values_in_range ("started", 5) (by decide)⟩

/-- C8. The race guard of `processVideo`: a record already `completed`
short-circuits to success with the existing data; a record `processing`
updated less than 30 minutes ago is rejected as a duplicate in flight; a
record `processing` whose last update is 30 minutes old or older
proceeds. -/
theorem processVideoGuard_races (ms : ℤ) :
    processVideoGuard "completed" ms = .shortCircuitCompleted ∧
    (ms < 30 * 60 * 1000 →
        processVideoGuard "processing" ms = .rejectDuplicate) ∧
    (30 * 60 * 1000 ≤ ms →
        processVideoGuard "processing" ms = .proceed) := by
  refine ⟨rfl, ?_, ?_⟩
  · intro h
    simp [processVideoGuard]
    omega
  · intro h
    simp [processVideoGuard]
    omega

/-- C8 witness: one minute into processing is rejected; an hour-old
`processing` record proceeds. -/
theorem processVideoGuard_races_witness :
    ((60000 : ℤ) < 30 * 60 * 1000 ∧
      processVideoGuard "processing" 60000 = .rejectDuplicate) ∧
    ((30 * 60 * 1000 : ℤ) ≤ 3600000 ∧
      processVideoGuard "processing" 3600000 = .proceed) :=
  ⟨⟨by norm_num, (processVideoGuard_races 60000).2.1 (by norm_num)⟩,
    ⟨by norm_num, (processVideoGuard_races 3600000).2.2 (by norm_num)⟩⟩

/-- C10 counterexample: a payload whose `language` is the whitespace
string `"   "` passes validation, but the returned language is the default
`"english"`, not the trimmed (empty) language the claim's success clause
specifies. -/
theorem validateJobData_whitespace_language_cex :
    validateJobData (fun _ => true)
        { videoId := JsVal.str "507f1f77bcf86cd799439011"
          cloudinaryUrl := JsVal.str "https://res.cloudinary.com/x.mp4"
          language := JsVal.str "   " } =
      .ok { videoId := "507f1f77bcf86cd799439011"
            cloudinaryUrl := "https://res.cloudinary.com/x.mp4"
            language := "english" } ∧
    jsTrim "   " = "" ∧ ("english" : String) ≠ "" :=
  ⟨rfl, rfl, by decide⟩

/-- C10 amended: for every payload, `validateJobData` raises an error if
and only if the payload has a missing/non-string `videoId`, a string
`videoId` failing the ObjectId check, a missing/non-string
`cloudinaryUrl`, a `cloudinaryUrl` not starting with `https://`, or a
`language` present (not undefined/null) but not a string; on success it
returns the `videoId` and `cloudinaryUrl` trimmed and the `language`
trimmed, defaulting to `english` when absent or when the trimmed language
is empty. The hypothesis records that mongoose's
`ObjectId.isValid` rejects the empty string. -/
theorem validateJobData_amended (isValid : String → Bool)
    (hval : isValid "" = false) (jd : JobData) :
    ((validateJobData isValid jd).isOk = false ↔
      (isString jd.videoId = false ∨
        (∃ v, jd.videoId = .str v ∧ isValid v = false) ∨
        isString jd.cloudinaryUrl = false ∨
        (∃ u, jd.cloudinaryUrl = .str u ∧
          jsStartsWith u "https://" = false) ∨
        (nullish jd.language = false ∧ isString jd.language = false))) ∧
    (∀ out, validateJobData isValid jd = .ok out →
      ∃ v u, jd.videoId = .str v ∧ jd.cloudinaryUrl = .str u ∧
        out.videoId = jsTrim v ∧ out.cloudinaryUrl = jsTrim u ∧
        ((nullish jd.language = true ∧ out.language = "english") ∨
         (∃ l, jd.language = .str l ∧
            out.language =
              (if jsTrim l = "" then "english" else jsTrim l)))) := by
  have hempty : jsStartsWith "" "https://" = false := by decide
  obtain ⟨vid, url, lang⟩ := jd
  cases url <;> cases vid <;> cases lang <;>
    try (simp_all [validateJobData, truthy, isString, nullish, Except.isOk,
      Except.toBool])
  case mk.str.str.undef u v =>
    by_cases hv : v = "" <;> by_cases hiv : isValid v <;>
      by_cases hu : jsStartsWith u "https://" <;> by_cases hu0 : u = "" <;>
        simp_all [validateJobData, truthy, isString, nullish, Except.isOk,
          Except.toBool]
  case mk.str.str.jsNull u v =>
    by_cases hv : v = "" <;> by_cases hiv : isValid v <;>
      by_cases hu : jsStartsWith u "https://" <;> by_cases hu0 : u = "" <;>
        simp_all [validateJobData, truthy, isString, nullish, Except.isOk,
          Except.toBool]
  case mk.str.str.str u v l =>
    by_cases hv : v = "" <;> by_cases hiv : isValid v <;>
      by_cases hu : jsStartsWith u "https://" <;> by_cases hu0 : u = "" <;>
        simp_all [validateJobData, truthy, isString, nullish, Except.isOk,
          Except.toBool]
  case mk.str.str.num u v q =>
    by_cases hq : q = 0 <;>
      by_cases hv : v = "" <;> by_cases hiv : isValid v <;>
        by_cases hu : jsStartsWith u "https://" <;> by_cases hu0 : u = "" <;>
          simp_all [validateJobData, truthy, isString, nullish, Except.isOk,
            Except.toBool]
  case mk.str.str.boolean u v b =>
    cases b <;>
      by_cases hv : v = "" <;> by_cases hiv : isValid v <;>
        by_cases hu : jsStartsWith u "https://" <;> by_cases hu0 : u = "" <;>
          simp_all [validateJobData, truthy, isString, nullish, Except.isOk,
            Except.toBool]

/-- C10 amended, witness: a missing (`undefined`) `videoId` raises; a
valid payload with `language = " Spanish "` succeeds with the language
trimmed. -/
theorem validateJobData_amended_witness :
    (fun s => decide (s = "507f1f77bcf86cd799439011")) "" = false ∧
    (validateJobData (fun s => decide (s = "507f1f77bcf86cd799439011"))
        { videoId := JsVal.undef
          cloudinaryUrl := JsVal.str "https://x"
          language := JsVal.undef }).isOk = false ∧
    (∃ v u, JsVal.str "507f1f77bcf86cd799439011" = JsVal.str v ∧
      JsVal.str "https://res.cloudinary.com/demo/video.mp4" =
        JsVal.str u ∧
      ("507f1f77bcf86cd799439011" : String) = jsTrim v ∧
      ("https://res.cloudinary.com/demo/video.mp4" : String) = jsTrim u ∧
      ((nullish (JsVal.str " Spanish ") = true ∧
          ("Spanish" : String) = "english") ∨
       (∃ l, JsVal.str " Spanish " = JsVal.str l ∧
          ("Spanish" : String) =
            (if jsTrim l = "" then "english" else jsTrim l)))) := by
  refine ⟨by decide, ?_, ?_⟩
  · exact ((validateJobData_amended
      (fun s => decide (s = "507f1f77bcf86cd799439011")) (by decide)
      { videoId := JsVal.undef
        cloudinaryUrl := JsVal.str "https://x"
        language := JsVal.undef }).1).mpr (Or.inl rfl)
  · exact (validateJobData_amended
      (fun s => decide (s = "507f1f77bcf86cd799439011")) (by decide)
      { videoId := JsVal.str "507f1f77bcf86cd799439011"
        cloudinaryUrl := JsVal.str "https://res.cloudinary.com/demo/video.mp4"
        language := JsVal.str " Spanish " }).2
      { videoId := "507f1f77bcf86cd799439011"
        cloudinaryUrl := "https://res.cloudinary.com/demo/video.mp4"
        language := "Spanish" } rfl

end VideoProcessor

end VideoUploader
